import Mathlib

/-
  Verification of the lifeomic/one-query core: fingerprint (query key)
  construction and recognition, invalidation matching, copy-on-write cache
  updates, and combination of query results.

  The TypeScript sources are shallowly embedded: each definition mirrors one
  source function (file and line references are given in its doc comment).
  JavaScript runtime values are modelled by the `JSValue` type; operations
  that can throw in JavaScript return `Except JSError`.
-/

namespace OneQuery

/-! ## Result combination (src/src/combination.ts, lines 157-200 revision) -/

/-- Status of a single underlying query, as in tanstack react-query v5:
`error`, `pending` (initial load not finished) or `success`. -/
inductive QueryStatus where
  | error
  | pending
  | success
deriving DecidableEq, Repr

/-- The fields of a tanstack `QueryObserverResult` consumed by
`combineQueries`: the discriminated status, the (possibly undefined) data,
and the fetching flags. `data = none` models `undefined`. -/
structure QueryObserverResult (α : Type) where
  status : QueryStatus
  data : Option α
  isFetching : Bool
  isRefetching : Bool
deriving DecidableEq, Repr

/-- Status discriminant of the combined result: the source returns the
string literal `'loading'` in its pending branch. -/
inductive CombinedStatus where
  | error
  | loading
  | success
deriving DecidableEq, Repr

/-- The combined aggregate returned by `combineQueries`
(`CombinedQueriesResult` in src/src/combination.ts). `data = none` models
`data: undefined`; in the success branch the source sets
`data: queries.map((query) => query.data)`. -/
structure CombinedQueriesResult (α : Type) where
  status : CombinedStatus
  isPending : Bool
  isError : Bool
  data : Option (List (Option α))
  isFetching : Bool
  isRefetching : Bool
  queries : List (QueryObserverResult α)
deriving DecidableEq, Repr

/-- Embedding of `combineQueries` (src/src/combination.ts lines 157-200).
The `base` object computes `isFetching`/`isRefetching` by `.some(...)` over
the inputs before the status branches; `refetchAll` is an effectful callback
on the external handles and is not part of the value model. -/
def combineQueries {α : Type} (queries : List (QueryObserverResult α)) :
    CombinedQueriesResult α :=
  let isFetching := queries.any fun query => query.isFetching
  let isRefetching := queries.any fun query => query.isRefetching
  if queries.any fun query => query.status == QueryStatus.error then
    { status := CombinedStatus.error
      isPending := false
      isError := true
      data := none
      isFetching := isFetching
      isRefetching := isRefetching
      queries := queries }
  else if queries.any fun query => query.status == QueryStatus.pending then
    { status := CombinedStatus.loading
      isPending := true
      isError := false
      data := none
      isFetching := isFetching
      isRefetching := isRefetching
      queries := queries }
  else
    { status := CombinedStatus.success
      isPending := false
      isError := false
      data := some (queries.map fun query => query.data)
      isFetching := isFetching
      isRefetching := isRefetching
      queries := queries }

/-! ## JavaScript value model

The cache store (tanstack `QueryClient`) is a heterogeneous shared space:
query keys are arrays of arbitrary runtime values. `JSValue` models those
values; objects are association lists in field insertion order.  -/

/-- A JavaScript runtime value. `object` fields are listed in insertion
order and, as produced by object literals, carry pairwise distinct keys. -/
inductive JSValue where
  | null
  | undefined
  | boolean (b : Bool)
  | number (n : Int)
  | string (s : String)
  | array (elems : List JSValue)
  | object (fields : List (String × JSValue))
deriving Repr

/-- The only JavaScript error our embedded operations can raise. -/
inductive JSError where
  | typeError
deriving DecidableEq, Repr

/-- Model of the JavaScript `typeof` operator on our value model. Note
`typeof null` is the string "object". -/
def jsTypeof : JSValue → String
  | JSValue.null => "object"
  | JSValue.undefined => "undefined"
  | JSValue.boolean _ => "boolean"
  | JSValue.number _ => "number"
  | JSValue.string _ => "string"
  | JSValue.array _ => "object"
  | JSValue.object _ => "object"

/-- First field of an object association list bound to a key, if any. -/
def lookupField : List (String × JSValue) → String → Option JSValue
  | [], _ => none
  | (k, v) :: rest, key => if k == key then some v else lookupField rest key

/-- Whether an object association list binds a key. -/
def containsKey (fields : List (String × JSValue)) (key : String) : Bool :=
  fields.any fun f => f.1 == key

/-- Model of the JavaScript `in` operator, `key in v`. It reports own
properties (for arrays: the numeric indices and `length`; prototype-chain
properties are not modelled, and none of the property names used by this
core collides with one). Applying `in` to `null`, `undefined` or a
primitive throws a TypeError. -/
def jsIn (key : String) (v : JSValue) : Except JSError Bool :=
  match v with
  | JSValue.object fields => Except.ok (containsKey fields key)
  | JSValue.array elems =>
      Except.ok (key == "length" ||
        (List.range elems.length).any fun i => toString i == key)
  | _ => Except.error JSError.typeError

/-- Model of JavaScript member access `v.key` on values for which it does
not throw: the own field of an object, `undefined` otherwise. It is only
applied after a guard has established `v` is an object. -/
def jsGet (v : JSValue) (key : String) : JSValue :=
  match v with
  | JSValue.object fields => (lookupField fields key).getD JSValue.undefined
  | _ => JSValue.undefined

/-- Embedding of `isInternalQueryKey` (src/src/util.ts lines 101-106):
`typeof key === 'object' && 'name' in key && 'route' in key &&
'payload' in key && 'infinite' in key`, with JavaScript short-circuit
evaluation. Since `typeof null === 'object'`, evaluating `'name' in null`
throws a TypeError. -/
def isInternalQueryKey (key : JSValue) : Except JSError Bool :=
  if jsTypeof key ≠ "object" then Except.ok false
  else
    match jsIn "name" key with
    | Except.error e => Except.error e
    | Except.ok false => Except.ok false
    | Except.ok true =>
      match jsIn "route" key with
      | Except.error e => Except.error e
      | Except.ok false => Except.ok false
      | Except.ok true =>
        match jsIn "payload" key with
        | Except.error e => Except.error e
        | Except.ok false => Except.ok false
        | Except.ok true => jsIn "infinite" key

/-- The recognizer C6 describes (claim-side, from the spec's words): all
four fields present with their specified types — `name` and `route`
strings, `infinite` boolean, `payload` of any type. -/
def isTypedInternalQueryKey (v : JSValue) : Bool :=
  match v with
  | JSValue.object fields =>
      (match lookupField fields "name" with
        | some (JSValue.string _) => true
        | _ => false) &&
      (match lookupField fields "route" with
        | some (JSValue.string _) => true
        | _ => false) &&
      (lookupField fields "payload").isSome &&
      (match lookupField fields "infinite" with
        | some (JSValue.boolean _) => true
        | _ => false)
  | _ => false

/-- Result of a non-throwing boolean test, `false` when it threw. -/
def exceptBoolGetD : Except JSError Bool → Bool
  | Except.ok b => b
  | Except.error _ => false

/-- What the source recognizer actually tests: presence of the four fields
per the `in` operator, with no type verification. -/
def hasAllKeyFieldsPresent (v : JSValue) : Bool :=
  exceptBoolGetD (jsIn "name" v) && exceptBoolGetD (jsIn "route" v) &&
    exceptBoolGetD (jsIn "payload" v) && exceptBoolGetD (jsIn "infinite" v)

/-! ## Deep structural equality (lodash isEqual, an external dependency of
src/src/cache.ts) -/

/-- Whether every key of `ys` is bound in `xs`. -/
def keysIncluded (ys xs : List (String × JSValue)) : Bool :=
  ys.all fun f => containsKey xs f.1

mutual

/-- Model of lodash `isEqual`: deep structural equality of JS values.
Arrays compare element-wise in order; objects compare by key set, each key
bound to deeply-equal values, irrespective of insertion order. -/
def isEqual : JSValue → JSValue → Bool
  | JSValue.null, JSValue.null => true
  | JSValue.undefined, JSValue.undefined => true
  | JSValue.boolean a, JSValue.boolean b => a == b
  | JSValue.number a, JSValue.number b => a == b
  | JSValue.string a, JSValue.string b => a == b
  | JSValue.array xs, JSValue.array ys => isEqualList xs ys
  | JSValue.object xs, JSValue.object ys => isEqualFields xs ys && keysIncluded ys xs
  | _, _ => false

/-- Element-wise deep equality of two value lists. -/
def isEqualList : List JSValue → List JSValue → Bool
  | [], [] => true
  | x :: xs, y :: ys => isEqual x y && isEqualList xs ys
  | _, _ => false

/-- Every field of the first list has a deeply-equal binding in the second. -/
def isEqualFields : List (String × JSValue) → List (String × JSValue) → Bool
  | [], _ => true
  | (k, v) :: rest, ys => fieldMatches k v ys && isEqualFields rest ys

/-- The field list binds `k` to a value deeply equal to `v`. -/
def fieldMatches : String → JSValue → List (String × JSValue) → Bool
  | _, _, [] => false
  | k, v, (k2, w) :: ys => (k == k2 && isEqual v w) || fieldMatches k v ys

end

/-! ## Invalidation matching (src/src/cache.ts, src/unnamed/part_001) -/

/-- One route's entry in an invalidation spec
(`EndpointInvalidationPredicate` in src/src/types.ts lines 123-126):
the literal "all", a list of candidate payloads, or a predicate function
over the route's payload type. -/
inductive EndpointInvalidationPredicate where
  | all
  | list (payloads : List JSValue)
  | func (p : JSValue → Bool)

/-- An invalidation spec (`EndpointInvalidationMap` in src/src/types.ts):
a partial mapping from route to predicate, modelled as an association
list with pairwise distinct keys. -/
abbrev EndpointInvalidationMap : Type :=
  List (String × EndpointInvalidationPredicate)

/-- First predicate bound to a route, if any. -/
def lookupRoute :
    EndpointInvalidationMap → String → Option EndpointInvalidationPredicate
  | [], _ => none
  | (route, p) :: rest, key => if route == key then some p else lookupRoute rest key

/-- Model of the property access `endpoints[entry.route]` followed by the
falsiness test of the source: an absent route yields no predicate.
JavaScript coerces non-string property keys to strings; since every route
key of a spec is a "METHOD path" template, only a string route value can
name one, so non-string route values are modelled as absent. -/
def endpointLookup (endpoints : EndpointInvalidationMap) (route : JSValue) :
    Option EndpointInvalidationPredicate :=
  match route with
  | JSValue.string s => lookupRoute endpoints s
  | _ => none

/-- Strict equality `v === b` of a value against a boolean. -/
def jsStrictEqBoolean (v : JSValue) (b : Bool) : Bool :=
  match v with
  | JSValue.boolean c => c == b
  | _ => false

/-- Strict equality `v === s` of a value against a string. -/
def jsStrictEqString (v : JSValue) (s : String) : Bool :=
  match v with
  | JSValue.string t => t == s
  | _ => false

/-- Embedding of the per-entry test of `createQueryFilterFromSpec`
(src/unnamed/part_001 lines 13-49, the revision carrying the paginated
flag in the key): reject non-keys, reject entries whose `infinite` field
is not strictly equal to the operation's flag, then dispatch on the
route's predicate — absent: reject; "all": accept; function: its verdict
on the entry's payload; list: accept iff some element is deeply equal to
the entry's payload. -/
def queryFilterEntryPred (endpoints : EndpointInvalidationMap)
    (infinite : Bool) (entry : JSValue) : Except JSError Bool :=
  match isInternalQueryKey entry with
  | Except.error e => Except.error e
  | Except.ok false => Except.ok false
  | Except.ok true =>
    if !jsStrictEqBoolean (jsGet entry "infinite") infinite then Except.ok false
    else
      match endpointLookup endpoints (jsGet entry "route") with
      | none => Except.ok false
      | some EndpointInvalidationPredicate.all => Except.ok true
      | some (EndpointInvalidationPredicate.func p) =>
          Except.ok (p (jsGet entry "payload"))
      | some (EndpointInvalidationPredicate.list payloads) =>
          Except.ok (payloads.any fun payload => isEqual payload (jsGet entry "payload"))

/-- Model of JavaScript `Array.prototype.some` with a possibly-throwing
callback: left-to-right, short-circuiting, propagating a thrown error. -/
def jsSome (pred : JSValue → Except JSError Bool) :
    List JSValue → Except JSError Bool
  | [] => Except.ok false
  | entry :: rest =>
    match pred entry with
    | Except.error e => Except.error e
    | Except.ok true => Except.ok true
    | Except.ok false => jsSome pred rest

/-- Embedding of `createQueryFilterFromSpec` (src/unnamed/part_001 lines
13-49): the produced QueryFilters predicate tests
`query.queryKey.some(entry => ...)`. -/
def createQueryFilterFromSpec (endpoints : EndpointInvalidationMap)
    (infinite : Bool) (queryKey : List JSValue) : Except JSError Bool :=
  jsSome (queryFilterEntryPred endpoints infinite) queryKey

/-- Embedding of the per-entry test of the `createQueryFilterFromSpec`
revision without the paginated-flag option (src/src/cache.ts lines 63-94,
likewise src/unnamed/part_001 lines 113-144): identical to
`queryFilterEntryPred` minus the `infinite` comparison. -/
def queryFilterEntryPredNoFlag (endpoints : EndpointInvalidationMap)
    (entry : JSValue) : Except JSError Bool :=
  match isInternalQueryKey entry with
  | Except.error e => Except.error e
  | Except.ok false => Except.ok false
  | Except.ok true =>
    match endpointLookup endpoints (jsGet entry "route") with
    | none => Except.ok false
    | some EndpointInvalidationPredicate.all => Except.ok true
    | some (EndpointInvalidationPredicate.func p) =>
        Except.ok (p (jsGet entry "payload"))
    | some (EndpointInvalidationPredicate.list payloads) =>
        Except.ok (payloads.any fun payload => isEqual payload (jsGet entry "payload"))

/-- Embedding of `createQueryKey` (src/src/util.ts lines 94-99): the
options object, fields in declaration order, is itself the key. -/
def createQueryKey (name route : String) (payload : JSValue)
    (infinite : Bool) : JSValue :=
  JSValue.object [("name", JSValue.string name), ("route", JSValue.string route),
    ("payload", payload), ("infinite", JSValue.boolean infinite)]

/-- `invalidateQueries` of `createCacheUtils` (src/unnamed/part_001 lines
82-86) hands the external store the filter built from the spec with
`infinite: false`. `name` is the calling client's scope, closed over by
the hooks (src/unnamed/part_003 lines 85-89); the filter itself never
consults it. The store applies the filter to each cached query key. -/
def invalidateQueriesMatches (name : String)
    (endpoints : EndpointInvalidationMap) (queryKey : List JSValue) :
    Except JSError Bool :=
  createQueryFilterFromSpec endpoints false queryKey

/-- `resetQueries` of `createCacheUtils` (src/unnamed/part_001 lines
87-91): the same filter, handed to the store's reset operation. -/
def resetQueriesMatches (name : String)
    (endpoints : EndpointInvalidationMap) (queryKey : List JSValue) :
    Except JSError Bool :=
  createQueryFilterFromSpec endpoints false queryKey

/-- `invalidateInfiniteQueries` (src/unnamed/part_001 lines 92-96):
the filter built with `infinite: true`. -/
def invalidateInfiniteQueriesMatches (name : String)
    (endpoints : EndpointInvalidationMap) (queryKey : List JSValue) :
    Except JSError Bool :=
  createQueryFilterFromSpec endpoints true queryKey

/-- `resetInfiniteQueries` (src/unnamed/part_001 lines 97-101). -/
def resetInfiniteQueriesMatches (name : String)
    (endpoints : EndpointInvalidationMap) (queryKey : List JSValue) :
    Except JSError Bool :=
  createQueryFilterFromSpec endpoints true queryKey

/-- The subset of cached query keys a filter accepts — what the external
store invalidates or resets when handed the filter. -/
def acceptedKeys (pred : List JSValue → Except JSError Bool)
    (keys : List (List JSValue)) : List (List JSValue) :=
  keys.filter fun k =>
    match pred k with
    | Except.ok true => true
    | _ => false

/-! ## Cache update engine (src/unnamed/part_001 lines 59-79; the revision
cited at src/src/cache.ts lines 105-125 differs only in carrying the
paginated marker as a key prefix instead of a key field) -/

/-- The external store's state: tanstack QueryClient's cache, a map from
query key (an array of values) to cached data, modelled as an association
list. Data values are abstract in `V`. -/
abbrev Cache (V : Type) : Type :=
  List (List JSValue × V)

/-- Query key identity as used by the external store: react-query hashes
keys with a stable serialization that ignores object key order, i.e. deep
structural equality of the key arrays. -/
def queryKeyEq (a b : List JSValue) : Bool :=
  isEqualList a b

/-- Data cached under a query key, if any (the store's `getQueryData`). -/
def cacheLookup {V : Type} : Cache V → List JSValue → Option V
  | [], _ => none
  | (k, v) :: rest, key => if queryKeyEq k key then some v else cacheLookup rest key

/-- Replace the entry at a key, or append a new entry for it. -/
def cacheUpsert {V : Type} : Cache V → List JSValue → V → Cache V
  | [], key, v => [(key, v)]
  | (k, w) :: rest, key, v =>
      if queryKeyEq k key then (k, v) :: rest else (k, w) :: cacheUpsert rest key v

/-- Model of the external store's `QueryClient.setQueryData` with a
functional updater (the spec's `setEntry`, §6): the updater receives the
current cached value (`none` when absent); per react-query's documented
contract, an `undefined` result leaves the cache untouched — no entry is
created or updated — while a defined result is committed at the key. -/
def setQueryData {V : Type} (cache : Cache V) (key : List JSValue)
    (updater : Option V → Option V) : Cache V :=
  match updater (cacheLookup cache key) with
  | none => cache
  | some v => cacheUpsert cache key v

/-- A transform supplied to the updateCache utilities
(`CacheUpdate` in src/src/types.ts line 134: `(current) => Data | void`).
Transforms run under immer: the function receives the working draft and
yields the final draft state paired with its return value (`none` models
a `void` return). -/
abbrev TSUpdater (V : Type) : Type :=
  V → V × Option V

/-- Model of immer's `produce` (an external dependency of src/src/cache.ts):
the recipe is applied to a working copy of the current value; when it
returns a value, that value is committed, otherwise the (possibly mutated)
final draft is. The input value itself is never modified — copy-on-write
is intrinsic to this pure model. -/
def produce {V : Type} (current : V) (recipe : TSUpdater V) : V :=
  match recipe current with
  | (draft, ret) => ret.getD draft

/-- The updater argument of `updateCache`: a literal replacement value or
a transform function. -/
inductive CacheUpdate (V : Type) where
  | value (v : V)
  | func (f : TSUpdater V)

/-- Embedding of the updater wrapper of `updateCache` (src/unnamed/part_001
lines 65-77): a non-function updater is passed through; a function updater
becomes `(current) => { if (current === undefined) return; return
produce(current, updater); }`. -/
def cacheUpdaterFn {V : Type} (updater : CacheUpdate V) :
    Option V → Option V :=
  match updater with
  | CacheUpdate.value v => fun _ => some v
  | CacheUpdate.func f => fun current =>
      match current with
      | none => none
      | some cur => some (produce cur f)

/-- Embedding of `updateCache` (src/unnamed/part_001 lines 59-79):
`client.setQueryData([makeQueryKey(route, payload, options.infinite)],
wrapper)`, where the hooks bind `makeQueryKey` to `createQueryKey` with
the client's name (src/unnamed/part_003 lines 85-89). `updateCache` is
instantiated with `infinite := false`, `updateInfiniteCache` with
`infinite := true`. -/
def updateCache {V : Type} (name : String) (infinite : Bool)
    (route : String) (payload : JSValue) (updater : CacheUpdate V)
    (cache : Cache V) : Cache V :=
  setQueryData cache [createQueryKey name route payload infinite]
    (cacheUpdaterFn updater)

/-- A transform in "mutate the draft in place, return nothing" style:
the final draft state is `g` of the input, and nothing is returned. -/
def mutateStyle {V : Type} (g : V → V) : TSUpdater V :=
  fun v => (g v, none)

/-- A transform in "return a brand-new value" style: the draft is left
untouched and a freshly constructed value `g v` is returned. -/
def returnStyle {V : Type} (g : V → V) : TSUpdater V :=
  fun v => (v, some (g v))

/-! ## Bulk cache reads of the key-prefix revision
(src/unnamed/part_001 lines 106-232): that revision marks paginated
entries by the key prefix `'infinite'` and stores three-field key objects
`{name, route, payload}` built by a three-argument `createQueryKey` whose
util.ts revision is not part of src/. -/

/-- Embedding of `INFINITE_QUERY_KEY` (src/unnamed/part_001 line 146). -/
def INFINITE_QUERY_KEY : String :=
  "infinite"

/-- Modelled from the spec: the key-prefix era's `createQueryKey` — its
util.ts revision is absent from src/, only its callers are present; per
the spec's Fingerprint codec, it deterministically builds the key object
from the client scope, the route and the payload (the paginated marker of
that era lives in the key prefix, not in the object). -/
def legacyCreateQueryKey (name route : String) (payload : JSValue) : JSValue :=
  JSValue.object [("name", JSValue.string name),
    ("route", JSValue.string route), ("payload", payload)]

/-- Modelled from the spec: the key-prefix era's `isInternalQueryKey`
(spec `isFingerprint`) — its util.ts revision is absent from src/; it
mirrors the in-src recognizer (src/src/util.ts lines 101-106) over that
era's key fields name, route, payload. -/
def legacyIsInternalQueryKey (key : JSValue) : Except JSError Bool :=
  if jsTypeof key ≠ "object" then Except.ok false
  else
    match jsIn "name" key with
    | Except.error e => Except.error e
    | Except.ok false => Except.ok false
    | Except.ok true =>
      match jsIn "route" key with
      | Except.error e => Except.error e
      | Except.ok false => Except.ok false
      | Except.ok true => jsIn "payload" key

/-- Embedding of the per-entry test of `createQueryFilterFromSpec` in the
key-prefix revision (src/unnamed/part_001 lines 113-144, identical text at
src/src/cache.ts lines 63-94): no paginated-flag comparison; the guard is
that era's recognizer. -/
def legacyQueryFilterEntryPred (endpoints : EndpointInvalidationMap)
    (entry : JSValue) : Except JSError Bool :=
  match legacyIsInternalQueryKey entry with
  | Except.error e => Except.error e
  | Except.ok false => Except.ok false
  | Except.ok true =>
    match endpointLookup endpoints (jsGet entry "route") with
    | none => Except.ok false
    | some EndpointInvalidationPredicate.all => Except.ok true
    | some (EndpointInvalidationPredicate.func p) =>
        Except.ok (p (jsGet entry "payload"))
    | some (EndpointInvalidationPredicate.list payloads) =>
        Except.ok (payloads.any fun payload => isEqual payload (jsGet entry "payload"))

/-- The whole-key filter of the key-prefix revision:
`query.queryKey.some(entry => ...)`. -/
def legacyCreateQueryFilterFromSpec (endpoints : EndpointInvalidationMap)
    (queryKey : List JSValue) : Except JSError Bool :=
  jsSome (legacyQueryFilterEntryPred endpoints) queryKey

/-- Model of the external store's `QueryClient.getQueriesData(filters)`:
every cached entry whose query key satisfies the filter predicate, paired
with its data, in cache order; a throwing predicate propagates. -/
def clientGetQueriesData {V : Type} :
    Cache V → (List JSValue → Except JSError Bool) →
    Except JSError (List (List JSValue × V))
  | [], _ => Except.ok []
  | (k, v) :: rest, pred =>
    match pred k with
    | Except.error e => Except.error e
    | Except.ok b =>
      match clientGetQueriesData rest pred with
      | Except.error e => Except.error e
      | Except.ok tail => Except.ok (if b then (k, v) :: tail else tail)

/-- Model of JavaScript indexing `l[i]` on an array of values:
`undefined` past the end. -/
def jsIndex (l : List JSValue) (i : Nat) : JSValue :=
  (l.drop i).headD JSValue.undefined

/-- Embedding of `getQueriesData` (src/unnamed/part_001 lines 213-221):
query the store with the filter built from `{ [route]: 'all' }`, drop
entries whose key starts with the infinite marker
(`queryKey[0] !== INFINITE_QUERY_KEY`), and report each remaining entry as
`{ payload: queryKey[0].payload, data }`. -/
def getQueriesData {V : Type} (route : String) (cache : Cache V) :
    Except JSError (List (JSValue × V)) :=
  match clientGetQueriesData cache
    (legacyCreateQueryFilterFromSpec [(route, EndpointInvalidationPredicate.all)]) with
  | Except.error e => Except.error e
  | Except.ok results =>
      Except.ok ((results.filter fun r =>
          !jsStrictEqString (jsIndex r.1 0) INFINITE_QUERY_KEY).map
        fun r => (jsGet (jsIndex r.1 0) "payload", r.2))

/-- Embedding of `getInfiniteQueriesData` (src/unnamed/part_001 lines
222-230): same store query, keep only keys starting with the infinite
marker (`queryKey[0] === INFINITE_QUERY_KEY`), and report
`{ payload: queryKey[1].payload, data }`. -/
def getInfiniteQueriesData {V : Type} (route : String) (cache : Cache V) :
    Except JSError (List (JSValue × V)) :=
  match clientGetQueriesData cache
    (legacyCreateQueryFilterFromSpec [(route, EndpointInvalidationPredicate.all)]) with
  | Except.error e => Except.error e
  | Except.ok results =>
      Except.ok ((results.filter fun r =>
          jsStrictEqString (jsIndex r.1 0) INFINITE_QUERY_KEY).map
        fun r => (jsGet (jsIndex r.1 1) "payload", r.2))

/-- Well-formedness of a key object of the key-prefix era: name and
payload present, route present as a string. -/
def legacyKeyObjOK (v : JSValue) : Bool :=
  match v with
  | JSValue.object fields =>
      containsKey fields "name" &&
        (match lookupField fields "route" with
          | some (JSValue.string _) => true
          | _ => false) &&
        containsKey fields "payload"
  | _ => false

/-- Well-formedness of a cached query key of the key-prefix era: either
`[keyObject]` (non-paginated) or `['infinite', keyObject]` (paginated). -/
def legacyWFKey (key : List JSValue) : Bool :=
  match key with
  | [obj] => legacyKeyObjOK obj
  | [p, obj] => jsStrictEqString p INFINITE_QUERY_KEY && legacyKeyObjOK obj
  | _ => false

/-- Claim-side: a non-paginated cache entry of the given route. -/
def isPlainEntryFor (route : String) (key : List JSValue) : Bool :=
  match key with
  | [obj] => jsStrictEqString (jsGet obj "route") route
  | _ => false

/-- Claim-side: a paginated cache entry of the given route. -/
def isInfiniteEntryFor (route : String) (key : List JSValue) : Bool :=
  match key with
  | [p, obj] =>
      jsStrictEqString p INFINITE_QUERY_KEY &&
        jsStrictEqString (jsGet obj "route") route
  | _ => false

/-- A concrete key-prefix era cache used by the C9 witness: one
non-paginated and one paginated entry for "GET /items", and one
non-paginated entry for another route. -/
def exLegacyCache : Cache Nat :=
  [([legacyCreateQueryKey "client" "GET /items" JSValue.null], 1),
    ([JSValue.string "infinite",
      legacyCreateQueryKey "client" "GET /items" (JSValue.boolean true)], 2),
    ([legacyCreateQueryKey "client" "GET /other" (JSValue.number 3)], 3)]

/-! ## Request construction (src/src/util.ts lines 19-85) -/

/-- Model of JavaScript `s.includes(pat)`: `pat` occurs as a contiguous
substring of `s` (helper over character lists). -/
def includesAux (pat : List Char) : List Char → Bool
  | [] => pat.isEmpty
  | c :: rest => pat.isPrefixOf (c :: rest) || includesAux pat rest

/-- Model of JavaScript `String.prototype.includes`. -/
def jsIncludes (s pat : String) : Bool :=
  includesAux pat.data s.data

/-- Replace the first occurrence of `pat` (helper over character lists);
when `pat` does not occur the list is unchanged. -/
def replaceFirstAux (pat rep : List Char) : List Char → List Char
  | [] => if pat.isEmpty then rep else []
  | c :: rest =>
      if pat.isPrefixOf (c :: rest) then rep ++ (c :: rest).drop pat.length
      else c :: replaceFirstAux pat rep rest

/-- Model of JavaScript `s.replace(pat, rep)` with a plain-string pattern:
only the first occurrence is replaced. -/
def jsReplaceFirst (s pat rep : String) : String :=
  String.mk (replaceFirstAux pat.data rep.data s.data)

/-- Split on a separator character (helper over character lists,
accumulating the current chunk in reverse). -/
def splitAux (sep : Char) : List Char → List Char → List (List Char)
  | acc, [] => [acc.reverse]
  | acc, c :: rest =>
      if c == sep then acc.reverse :: splitAux sep [] rest
      else splitAux sep (c :: acc) rest

/-- Model of JavaScript `s.split(sep)` for a one-character separator, as
used by `route.split(' ')`. -/
def jsSplit (s : String) (sep : Char) : List String :=
  (splitAux sep [] s.data).map String.mk

/-- Upper-case hexadecimal digit. -/
def hexDigit (n : Nat) : Char :=
  ("0123456789ABCDEF".data.drop n).headD '0'

/-- UTF-8 encoding of one character, as byte values. -/
def charUtf8Bytes (c : Char) : List Nat :=
  let n := c.toNat
  if n < 128 then [n]
  else if n < 2048 then [192 + n / 64, 128 + n % 64]
  else if n < 65536 then [224 + n / 4096, 128 + (n / 64) % 64, 128 + n % 64]
  else [240 + n / 262144, 128 + (n / 4096) % 64, 128 + (n / 64) % 64,
    128 + n % 64]

/-- Characters `encodeURIComponent` leaves unescaped: ASCII alphanumerics
and `- _ . ! ~ * ' ( )`. -/
def uriUnreserved (c : Char) : Bool :=
  (c.isAlpha && c.toNat < 128) || c.isDigit || c == '-' || c == '_' ||
    c == '.' || c == '!' || c == '~' || c == '*' || c == Char.ofNat 39 ||
    c == '(' || c == ')'

/-- Model of the JavaScript builtin `encodeURIComponent`: unreserved
characters pass through, every other character is percent-encoded from
its UTF-8 bytes. -/
def encodeURIComponent (s : String) : String :=
  String.mk (s.data.foldr
    (fun c acc =>
      (if uriUnreserved c then [c]
        else (charUtf8Bytes c).foldr
          (fun b acc2 => '%' :: hexDigit (b / 16) :: hexDigit (b % 16) :: acc2)
          []) ++ acc)
    [])

mutual

/-- Model of the JavaScript `String(...)` coercion applied by
`encodeURIComponent` to a non-string argument. Integral numbers print
without a decimal point; arrays join their elements with commas, `null`
and `undefined` elements becoming empty. -/
def jsToString : JSValue → String
  | JSValue.null => "null"
  | JSValue.undefined => "undefined"
  | JSValue.boolean b => cond b "true" "false"
  | JSValue.number n => toString n
  | JSValue.string s => s
  | JSValue.array xs => jsToStringElems xs
  | JSValue.object _ => "[object Object]"
termination_by v => (sizeOf v, 0)

/-- Comma-joined element coercions of an array. -/
def jsToStringElems : List JSValue → String
  | [] => ""
  | [x] => jsToStringElem x
  | x :: rest => jsToStringElem x ++ "," ++ jsToStringElems rest
termination_by l => (sizeOf l, 1)

/-- Element coercion inside an array: null and undefined become empty. -/
def jsToStringElem : JSValue → String
  | JSValue.null => ""
  | JSValue.undefined => ""
  | v => jsToString v
termination_by v => (sizeOf v, 1)

end

/-- A request payload as passed to `APIClient.request`: a plain object or
an array (`RoughPathParams | RoughPathParams[]` in src/src/util.ts,
loosened to arbitrary values as the TS types are erased at runtime). -/
inductive JSPayload where
  | obj (fields : List (String × JSValue))
  | arr (elems : List JSValue)
deriving Repr

/-- Model of `Object.entries`: an object's fields in insertion order; for
an array, index strings paired with the elements. -/
def jsEntries : JSPayload → List (String × JSValue)
  | JSPayload.obj fields => fields
  | JSPayload.arr elems =>
      ((List.range elems.length).zip elems).map fun p => (toString p.1, p.2)

/-- Strict equality against `undefined`. -/
def jsIsUndefined : JSValue → Bool
  | JSValue.undefined => true
  | _ => false

/-- Model of the object spread `{ ...accum, [name]: value }`: an existing
binding keeps its position and takes the new value, a fresh one is
appended. -/
def objSet : List (String × JSValue) → String → JSValue → List (String × JSValue)
  | [], key, v => [(key, v)]
  | (k, w) :: rest, key, v =>
      if k == key then (k, v) :: rest else (k, w) :: objSet rest key v

/-- Embedding of `substitutePathParams` (src/src/util.ts lines 19-23):
`Object.entries(params).reduce((url, [name, value]) =>
url.replace(':' + name, encodeURIComponent(value)), route)`. -/
def substitutePathParams (route : String) (params : JSPayload) : String :=
  (jsEntries params).foldl
    (fun url e => jsReplaceFirst url (":" ++ e.1) (encodeURIComponent (jsToString e.2)))
    route

/-- Embedding of `removePathParamsFromRequestPayload` (src/src/util.ts
lines 42-57): arrays are returned unchanged; otherwise entries with
`undefined` values are dropped, and the remaining entries are folded into
a fresh object, skipping any name for which `route.includes(':' + name)`
holds. -/
def removePathParamsFromRequestPayload (route : String) (payload : JSPayload) :
    JSPayload :=
  match payload with
  | JSPayload.arr elems => JSPayload.arr elems
  | JSPayload.obj fields =>
      JSPayload.obj
        ((fields.filter fun e => !jsIsUndefined e.2).foldl
          (fun accum e =>
            if jsIncludes route (":" ++ e.1) then accum
            else objSet accum e.1 e.2)
          [])

/-- The axios request produced by `APIClient.request`: method, URL, and
the forwarded payload — `params` (query string) or `data` (body). -/
structure AxiosCall where
  method : String
  url : String
  params : Option JSPayload
  data : Option JSPayload
deriving Repr

/-- Embedding of `APIClient.request` (src/src/util.ts lines 59-85):
`const [method, url] = route.split(' ')`; the payload minus path params
becomes `params` for GET and DELETE and `data` otherwise; the URL has the
path params substituted in. -/
def request (route : String) (payload : JSPayload) : AxiosCall :=
  let parts := jsSplit route ' '
  let method := (parts.get? 0).getD ""
  let url := (parts.get? 1).getD ""
  let requestPayload := removePathParamsFromRequestPayload url payload
  if method == "GET" || method == "DELETE" then
    { method := method
      url := substitutePathParams url payload
      params := some requestPayload
      data := none }
  else
    { method := method
      url := substitutePathParams url payload
      params := none
      data := some requestPayload }

/-- The acceptance condition C2 attributes to the matcher (claim-side):
the route's predicate exists and is satisfied by the entry's payload. -/
def predicateAccepts (p : EndpointInvalidationPredicate)
    (payload : JSValue) : Prop :=
  match p with
  | EndpointInvalidationPredicate.all => True
  | EndpointInvalidationPredicate.func f => f payload = true
  | EndpointInvalidationPredicate.list cs => ∃ c ∈ cs, isEqual c payload = true

end OneQuery

namespace OneQuery

/-- C1: combineQueries merges statuses with strict precedence
error > pending > success. If some query has status error the combined
result is the error aggregate with data undefined; otherwise if some query
is pending the combined result is the loading aggregate with data
undefined; otherwise it is the success aggregate whose data is the list
of each query's value, position-preserving. -/
theorem combineQueries_status_precedence {α : Type}
    (queries : List (QueryObserverResult α)) :
    ((∃ q ∈ queries, q.status = QueryStatus.error) →
      (combineQueries queries).status = CombinedStatus.error ∧
      (combineQueries queries).isError = true ∧
      (combineQueries queries).isPending = false ∧
      (combineQueries queries).data = none) ∧
    ((¬ ∃ q ∈ queries, q.status = QueryStatus.error) →
      (∃ q ∈ queries, q.status = QueryStatus.pending) →
      (combineQueries queries).status = CombinedStatus.loading ∧
      (combineQueries queries).isError = false ∧
      (combineQueries queries).isPending = true ∧
      (combineQueries queries).data = none) ∧
    ((¬ ∃ q ∈ queries, q.status = QueryStatus.error) →
      (¬ ∃ q ∈ queries, q.status = QueryStatus.pending) →
      (combineQueries queries).status = CombinedStatus.success ∧
      (combineQueries queries).isError = false ∧
      (combineQueries queries).isPending = false ∧
      (combineQueries queries).data =
        some (queries.map fun query => query.data)) := by
  refine ⟨?_, ?_, ?_⟩
  · intro h
    have he : (queries.any fun query => query.status == QueryStatus.error) = true := by
      simp only [List.any_eq_true, beq_iff_eq]
      exact h
    simp [combineQueries, he]
  · intro hne h
    have he : (queries.any fun query => query.status == QueryStatus.error) = false := by
      simp only [List.any_eq_false, beq_iff_eq]
      intro q hq
      exact fun hqe => hne ⟨q, hq, hqe⟩
    have hp : (queries.any fun query => query.status == QueryStatus.pending) = true := by
      simp only [List.any_eq_true, beq_iff_eq]
      exact h
    simp [combineQueries, he, hp]
  · intro hne hnp
    have he : (queries.any fun query => query.status == QueryStatus.error) = false := by
      simp only [List.any_eq_false, beq_iff_eq]
      intro q hq
      exact fun hqe => hne ⟨q, hq, hqe⟩
    have hp : (queries.any fun query => query.status == QueryStatus.pending) = false := by
      simp only [List.any_eq_false, beq_iff_eq]
      intro q hq
      exact fun hqp => hnp ⟨q, hq, hqp⟩
    simp [combineQueries, he, hp]

/-- Witness for C1 at concrete inputs: a singleton error list combines to
error, an error-free list with a pending entry combines to loading, and an
all-success list combines to success with the ordered data list. -/
theorem combineQueries_status_precedence_witness :
    (combineQueries [(⟨QueryStatus.error, none, false, false⟩ :
        QueryObserverResult Nat)]).status = CombinedStatus.error ∧
    (combineQueries [(⟨QueryStatus.success, some 1, false, false⟩ :
        QueryObserverResult Nat), ⟨QueryStatus.pending, none, true, false⟩]).status =
      CombinedStatus.loading ∧
    (combineQueries [(⟨QueryStatus.success, some 1, false, false⟩ :
        QueryObserverResult Nat), ⟨QueryStatus.success, some 2, true, true⟩]).data =
      some [some 1, some 2] := by
  refine ⟨?_, ?_, ?_⟩
  · exact ((combineQueries_status_precedence _).1 (by decide)).1
  · exact ((combineQueries_status_precedence _).2.1 (by decide) (by decide)).1
  · exact ((combineQueries_status_precedence _).2.2 (by decide) (by decide)).2.2.2

/-- C8: the combined result's isFetching is true iff some underlying query
isFetching, and isRefetching is true iff some underlying query
isRefetching; both are computed identically in every status branch. -/
theorem combineQueries_fetching_flags {α : Type}
    (queries : List (QueryObserverResult α)) :
    (combineQueries queries).isFetching = (queries.any fun query => query.isFetching) ∧
    (combineQueries queries).isRefetching = (queries.any fun query => query.isRefetching) := by
  cases he : queries.any fun query => query.status == QueryStatus.error <;>
    cases hp : queries.any fun query => query.status == QueryStatus.pending <;>
      simp [combineQueries, he, hp]

/-- On a value of `typeof` "object" on which the `in` operator does not
throw, the recognizer reports exactly the presence of the four fields. -/
theorem isInternalQueryKey_eq_of_object (v : JSValue)
    (hty : jsTypeof v = "object")
    (hne : ∀ key : String, ∃ b : Bool, jsIn key v = Except.ok b) :
    isInternalQueryKey v = Except.ok (hasAllKeyFieldsPresent v) := by
  obtain ⟨b1, h1⟩ := hne "name"
  obtain ⟨b2, h2⟩ := hne "route"
  obtain ⟨b3, h3⟩ := hne "payload"
  obtain ⟨b4, h4⟩ := hne "infinite"
  simp only [isInternalQueryKey, hasAllKeyFieldsPresent, hty, h1, h2, h3, h4,
    exceptBoolGetD]
  rw [if_neg (by simp)]
  cases b1 <;> cases b2 <;> cases b3 <;> cases b4 <;> rfl

/-- C6 counterexample: the claim says isInternalQueryKey returns true iff
all four fields are present with their specified types, and returns a
boolean without raising for every value including null. The source checks
only presence: on an object whose four fields all have the wrong types it
still returns true; and on null (whose `typeof` is "object") the `in`
check throws a TypeError. -/
theorem isInternalQueryKey_c6_counterexample :
    isInternalQueryKey (JSValue.object [("name", JSValue.number 1),
      ("route", JSValue.boolean true), ("payload", JSValue.null),
      ("infinite", JSValue.string "x")]) = Except.ok true ∧
    isTypedInternalQueryKey (JSValue.object [("name", JSValue.number 1),
      ("route", JSValue.boolean true), ("payload", JSValue.null),
      ("infinite", JSValue.string "x")]) = false ∧
    isInternalQueryKey JSValue.null = Except.error JSError.typeError :=
  ⟨rfl, rfl, rfl⟩

/-- C6 (amended): isInternalQueryKey throws a TypeError on null; on every
other value it returns a boolean, true iff the value is of `typeof`
"object" with all four fields name, route, payload, infinite present —
their types are not verified. -/
theorem isInternalQueryKey_presence_only (v : JSValue) :
    (v = JSValue.null → isInternalQueryKey v = Except.error JSError.typeError) ∧
    (v ≠ JSValue.null → isInternalQueryKey v = Except.ok (hasAllKeyFieldsPresent v)) := by
  constructor
  · rintro rfl
    rfl
  · intro hv
    cases v with
    | null => exact absurd rfl hv
    | undefined => rfl
    | boolean b => rfl
    | number n => rfl
    | string s => rfl
    | array elems =>
        exact isInternalQueryKey_eq_of_object _ rfl fun key => ⟨_, rfl⟩
    | object fields =>
        exact isInternalQueryKey_eq_of_object _ rfl fun key => ⟨_, rfl⟩

/-- An association list binds a key exactly when its lookup succeeds. -/
theorem containsKey_eq_lookup_isSome (fields : List (String × JSValue))
    (key : String) :
    containsKey fields key = (lookupField fields key).isSome := by
  induction fields with
  | nil => rfl
  | cons f rest ih =>
      obtain ⟨k, v⟩ := f
      simp only [containsKey, List.any_cons, lookupField]
      cases hk : k == key <;> simp [hk]
      · simpa [containsKey] using ih

/-- A successful string-typed match implies the lookup succeeded. -/
theorem isSome_of_string_match (o : Option JSValue)
    (h : (match o with
      | some (JSValue.string _) => true
      | _ => false) = true) : o.isSome = true := by
  cases o with
  | none => simp at h
  | some v => rfl

/-- A value passing the typed recognizer passes the source recognizer. -/
theorem guard_of_typed (v : JSValue)
    (h : isTypedInternalQueryKey v = true) :
    isInternalQueryKey v = Except.ok true := by
  cases v with
  | null => simp [isTypedInternalQueryKey] at h
  | undefined => simp [isTypedInternalQueryKey] at h
  | boolean b => simp [isTypedInternalQueryKey] at h
  | number n => simp [isTypedInternalQueryKey] at h
  | string s => simp [isTypedInternalQueryKey] at h
  | array elems => simp [isTypedInternalQueryKey] at h
  | object fields =>
    simp only [isTypedInternalQueryKey] at h
    rw [isInternalQueryKey_eq_of_object (JSValue.object fields) rfl
      fun key => ⟨containsKey fields key, rfl⟩]
    simp only [Bool.and_eq_true] at h
    obtain ⟨⟨⟨h1, h2⟩, h3⟩, h4⟩ := h
    have p1 : (lookupField fields "name").isSome = true := isSome_of_string_match _ h1
    have p2 : (lookupField fields "route").isSome = true := isSome_of_string_match _ h2
    have p4 : (lookupField fields "infinite").isSome = true := by
      cases ho : lookupField fields "infinite" with
      | none => rw [ho] at h4; simp at h4
      | some w => rfl
    simp [hasAllKeyFieldsPresent, jsIn, exceptBoolGetD,
      containsKey_eq_lookup_isSome, p1, p2, p4, h3]

/-- An empty spec never resolves a route. -/
theorem endpointLookup_nil (route : JSValue) : endpointLookup [] route = none := by
  cases route <;> rfl

/-- C2: for every invalidation spec and every entry that is a valid
internal query key, the matcher built from the spec accepts the entry iff
the entry's route has a predicate in the spec and that predicate is "all",
or is a function returning true on the entry's payload, or is a list with
an element deeply equal to the entry's payload. In particular an empty
spec matches no entry, and an entry whose route is absent from the spec is
never matched even when other routes use "all". -/
theorem queryFilter_matches_iff_spec_predicate
    (endpoints : EndpointInvalidationMap) (entry : JSValue)
    (h : isTypedInternalQueryKey entry = true) :
    (queryFilterEntryPredNoFlag endpoints entry = Except.ok true ↔
      ∃ p, endpointLookup endpoints (jsGet entry "route") = some p ∧
        predicateAccepts p (jsGet entry "payload")) ∧
    (∀ e : JSValue, queryFilterEntryPredNoFlag [] e ≠ Except.ok true) ∧
    (endpointLookup endpoints (jsGet entry "route") = none →
      queryFilterEntryPredNoFlag endpoints entry ≠ Except.ok true) := by
  have hguard : isInternalQueryKey entry = Except.ok true := guard_of_typed entry h
  refine ⟨?_, ?_, ?_⟩
  · simp only [queryFilterEntryPredNoFlag, hguard]
    cases hl : endpointLookup endpoints (jsGet entry "route") with
    | none => simp
    | some p =>
        cases p with
        | all => simp [predicateAccepts]
        | func f => simp [predicateAccepts]
        | list cs => simp [predicateAccepts, List.any_eq_true]
  · intro e
    simp only [queryFilterEntryPredNoFlag]
    cases hg : isInternalQueryKey e with
    | error err => simp
    | ok b =>
        cases b
        · simp
        · rw [endpointLookup_nil]
          simp
  · intro hnone
    simp [queryFilterEntryPredNoFlag, hguard, hnone]

/-- Witness for C2: a spec mapping a route to "all" matches a well-formed
key for that route. -/
theorem queryFilter_matches_iff_spec_predicate_witness :
    queryFilterEntryPredNoFlag [("GET /items", EndpointInvalidationPredicate.all)]
      (createQueryKey "client" "GET /items" JSValue.null false) = Except.ok true := by
  have h := (queryFilter_matches_iff_spec_predicate
    [("GET /items", EndpointInvalidationPredicate.all)]
    (createQueryKey "client" "GET /items" JSValue.null false) rfl).1
  exact h.mpr ⟨EndpointInvalidationPredicate.all, rfl, trivial⟩

/-- C3 counterexample: the claim says an entry created under a different
scope (name) is never matched by invalidate/reset. Here the cache utils of
the client named "client-a" invalidate an entry created by the client
named "client-b": the filter never consults the scope. -/
theorem invalidateQueries_cross_scope_counterexample :
    invalidateQueriesMatches "client-a"
      [("GET /items", EndpointInvalidationPredicate.all)]
      [createQueryKey "client-b" "GET /items" JSValue.null false] =
      Except.ok true := rfl

/-- A singleton query key is accepted only through its one entry. -/
theorem jsSome_singleton (p : JSValue → Except JSError Bool) (e : JSValue)
    (h : jsSome p [e] = Except.ok true) : p e = Except.ok true := by
  cases hp : p e with
  | error err => simp [jsSome, hp] at h
  | ok b =>
      cases b
      · simp [jsSome, hp] at h
      · rfl

/-- An entry accepted by the filter of flag `b` has `infinite` field `b`. -/
theorem entry_flag_of_accepted (endpoints : EndpointInvalidationMap)
    (b : Bool) (entry : JSValue)
    (h : queryFilterEntryPred endpoints b entry = Except.ok true) :
    jsGet entry "infinite" = JSValue.boolean b := by
  rw [queryFilterEntryPred] at h
  cases hg : isInternalQueryKey entry with
  | error err => rw [hg] at h; simp at h
  | ok isKey =>
      rw [hg] at h
      cases isKey
      · simp at h
      · cases hs : jsStrictEqBoolean (jsGet entry "infinite") b with
        | false => rw [hs] at h; simp at h
        | true =>
            cases hv : jsGet entry "infinite" <;> rw [hv] at hs <;>
              simp [jsStrictEqBoolean] at hs
            rw [hs]

/-- C3 (amended): invalidate and reset restrict their matched set to the
operation's paginated flag — an entry matched by the non-paginated
operations has `infinite === false`, one matched by the paginated
operations has `infinite === true`, so paginated and non-paginated entries
are never matched together. The filter performs no scope restriction (see
the counterexample): entries of a different client name are matched
whenever route and payload satisfy the spec. -/
theorem invalidation_restricted_to_paginated_flag (name : String)
    (endpoints : EndpointInvalidationMap) (entry : JSValue) :
    (queryFilterEntryPred endpoints false entry = Except.ok true →
      jsGet entry "infinite" = JSValue.boolean false) ∧
    (queryFilterEntryPred endpoints true entry = Except.ok true →
      jsGet entry "infinite" = JSValue.boolean true) ∧
    (invalidateQueriesMatches name endpoints [entry] = Except.ok true →
      jsGet entry "infinite" = JSValue.boolean false) ∧
    (resetQueriesMatches name endpoints [entry] = Except.ok true →
      jsGet entry "infinite" = JSValue.boolean false) ∧
    (invalidateInfiniteQueriesMatches name endpoints [entry] = Except.ok true →
      jsGet entry "infinite" = JSValue.boolean true) ∧
    (resetInfiniteQueriesMatches name endpoints [entry] = Except.ok true →
      jsGet entry "infinite" = JSValue.boolean true) := by
  refine ⟨entry_flag_of_accepted endpoints false entry,
    entry_flag_of_accepted endpoints true entry, ?_, ?_, ?_, ?_⟩ <;>
    intro h <;>
    first
      | exact entry_flag_of_accepted endpoints false entry (jsSome_singleton _ _ h)
      | exact entry_flag_of_accepted endpoints true entry (jsSome_singleton _ _ h)

/-- Witness for C3 (amended): a non-paginated key matched by the
non-paginated filter indeed carries `infinite: false`. -/
theorem invalidation_restricted_to_paginated_flag_witness :
    jsGet (createQueryKey "client" "GET /items" JSValue.null false) "infinite" =
      JSValue.boolean false :=
  (invalidation_restricted_to_paginated_flag "client"
    [("GET /items", EndpointInvalidationPredicate.all)]
    (createQueryKey "client" "GET /items" JSValue.null false)).1 rfl

/-- C7: for every invalidation spec, invalidateQueries and resetQueries
build their query filter from the spec in the same way and therefore
select exactly the same set of cache entries; likewise for the paginated
variants. The two operations differ only in what the external store does
with the matched set. -/
theorem invalidate_reset_same_matched_set (name : String)
    (endpoints : EndpointInvalidationMap) (keys : List (List JSValue)) :
    acceptedKeys (invalidateQueriesMatches name endpoints) keys =
      acceptedKeys (resetQueriesMatches name endpoints) keys ∧
    acceptedKeys (invalidateInfiniteQueriesMatches name endpoints) keys =
      acceptedKeys (resetInfiniteQueriesMatches name endpoints) keys :=
  ⟨rfl, rfl⟩

/-- C4: a function-style cache update addressing a query key with no
current cached value is a no-op — the cache is unchanged, no entry is
created, and the transform is never invoked (the result is independent of
it). This covers updateCache (`infinite := false`) and updateInfiniteCache
(`infinite := true`). -/
theorem updateCache_noop_when_absent {V : Type} (name route : String)
    (payload : JSValue) (infinite : Bool) (f g : TSUpdater V) (cache : Cache V)
    (h : cacheLookup cache [createQueryKey name route payload infinite] = none) :
    updateCache name infinite route payload (CacheUpdate.func f) cache = cache ∧
    updateCache name infinite route payload (CacheUpdate.func f) cache =
      updateCache name infinite route payload (CacheUpdate.func g) cache := by
  constructor <;> simp [updateCache, setQueryData, cacheUpdaterFn, h]

/-- Witness for C4: updating an empty cache through a transform leaves it
empty. -/
theorem updateCache_noop_when_absent_witness :
    updateCache "client" false "GET /items" JSValue.null
      (CacheUpdate.func (mutateStyle Nat.succ)) ([] : Cache Nat) = [] :=
  (updateCache_noop_when_absent "client" "GET /items" JSValue.null false
    (mutateStyle Nat.succ) (mutateStyle Nat.succ) [] rfl).1

/-- C5: committing a transform that mutates its working copy in place and
returns nothing produces the same cache state as committing a transform
that returns a freshly constructed equal value; through immer's produce
both yield `g` of the current value, and the pure model never modifies the
original cached value. -/
theorem updateCache_mutate_return_equiv {V : Type} (name route : String)
    (payload : JSValue) (infinite : Bool) (g : V → V) (cache : Cache V) :
    updateCache name infinite route payload
        (CacheUpdate.func (mutateStyle g)) cache =
      updateCache name infinite route payload
        (CacheUpdate.func (returnStyle g)) cache ∧
    ∀ current : V, produce current (mutateStyle g) = g current ∧
      produce current (returnStyle g) = g current := by
  constructor
  · cases hl : cacheLookup cache [createQueryKey name route payload infinite] <;>
      simp [updateCache, setQueryData, cacheUpdaterFn, produce, mutateStyle,
        returnStyle, hl]
  · intro current
    exact ⟨rfl, rfl⟩

/-- A strict string comparison that succeeds pins down the value. -/
theorem eq_string_of_strictEq (v : JSValue) (s : String)
    (h : jsStrictEqString v s = true) : v = JSValue.string s := by
  cases v <;> simp [jsStrictEqString] at h
  rw [h]

/-- A successful string-typed match yields the bound string. -/
theorem string_match_exists (o : Option JSValue)
    (h : (match o with
      | some (JSValue.string _) => true
      | _ => false) = true) :
    ∃ s, o = some (JSValue.string s) := by
  cases o with
  | none => simp at h
  | some v =>
      cases v with
      | null => simp at h
      | undefined => simp at h
      | boolean b => simp at h
      | number n => simp at h
      | string s => exact ⟨s, rfl⟩
      | array xs => simp at h
      | object fs => simp at h

/-- A well-formed key object of the key-prefix era passes that era's
recognizer. -/
theorem legacyGuard_ok (v : JSValue) (h : legacyKeyObjOK v = true) :
    legacyIsInternalQueryKey v = Except.ok true := by
  cases v with
  | null => simp [legacyKeyObjOK] at h
  | undefined => simp [legacyKeyObjOK] at h
  | boolean b => simp [legacyKeyObjOK] at h
  | number n => simp [legacyKeyObjOK] at h
  | string s => simp [legacyKeyObjOK] at h
  | array xs => simp [legacyKeyObjOK] at h
  | object fields =>
      simp only [legacyKeyObjOK, Bool.and_eq_true] at h
      obtain ⟨⟨h1, h2⟩, h3⟩ := h
      have p2 : containsKey fields "route" = true := by
        rw [containsKey_eq_lookup_isSome]
        exact isSome_of_string_match _ h2
      simp [legacyIsInternalQueryKey, jsTypeof, jsIn, h1, h3, p2]

/-- On a well-formed key object, the key-prefix era filter for
`{ [route]: 'all' }` reports exactly whether the object's route is the
requested one. -/
theorem legacyPredObj (route : String) (obj : JSValue)
    (h : legacyKeyObjOK obj = true) :
    legacyQueryFilterEntryPred [(route, EndpointInvalidationPredicate.all)] obj =
      Except.ok (jsStrictEqString (jsGet obj "route") route) := by
  have hg := legacyGuard_ok obj h
  cases obj with
  | null => simp [legacyKeyObjOK] at h
  | undefined => simp [legacyKeyObjOK] at h
  | boolean b => simp [legacyKeyObjOK] at h
  | number n => simp [legacyKeyObjOK] at h
  | string s => simp [legacyKeyObjOK] at h
  | array xs => simp [legacyKeyObjOK] at h
  | object fields =>
      simp only [legacyKeyObjOK, Bool.and_eq_true] at h
      obtain ⟨r, hr⟩ := string_match_exists _ h.1.2
      cases hroute : route == r with
      | true =>
          have heq : route = r := by simpa using hroute
          subst heq
          simp [legacyQueryFilterEntryPred, hg, jsGet, hr, endpointLookup,
            lookupRoute, jsStrictEqString]
      | false =>
          have hne : route ≠ r := by simpa using hroute
          simp [legacyQueryFilterEntryPred, hg, jsGet, hr, endpointLookup,
            lookupRoute, jsStrictEqString, hne, Ne.symm hne]

/-- On a well-formed query key, the whole-key filter for
`{ [route]: 'all' }` accepts exactly the (plain or paginated) entries of
that route. -/
theorem legacyFilter_wf (route : String) (key : List JSValue)
    (h : legacyWFKey key = true) :
    legacyCreateQueryFilterFromSpec
        [(route, EndpointInvalidationPredicate.all)] key =
      Except.ok (isPlainEntryFor route key || isInfiniteEntryFor route key) := by
  cases key with
  | nil => simp [legacyWFKey] at h
  | cons a rest =>
      cases rest with
      | nil =>
          simp only [legacyWFKey] at h
          have hp := legacyPredObj route a h
          cases hs : jsStrictEqString (jsGet a "route") route <;>
            simp [legacyCreateQueryFilterFromSpec, jsSome, hp, hs,
              isPlainEntryFor, isInfiniteEntryFor]
      | cons b rest2 =>
          cases rest2 with
          | nil =>
              simp only [legacyWFKey, Bool.and_eq_true] at h
              obtain ⟨hpfx, hobj⟩ := h
              have ha := eq_string_of_strictEq a INFINITE_QUERY_KEY hpfx
              subst ha
              have hp := legacyPredObj route b hobj
              have hfirst : legacyQueryFilterEntryPred
                  [(route, EndpointInvalidationPredicate.all)]
                  (JSValue.string "infinite") = Except.ok false := rfl
              have htriv : jsStrictEqString (JSValue.string "infinite")
                  "infinite" = true := rfl
              cases hs : jsStrictEqString (jsGet b "route") route <;>
                simp [legacyCreateQueryFilterFromSpec, jsSome, hfirst, hp, hs,
                  isPlainEntryFor, isInfiniteEntryFor, INFINITE_QUERY_KEY, htriv]
          | cons c rest3 => simp [legacyWFKey] at h

/-- Over a well-formed cache, the store query driven by the
`{ [route]: 'all' }` filter returns exactly the entries of that route. -/
theorem clientGetQueriesData_wf {V : Type} (route : String) (cache : Cache V)
    (h : cache.all (fun e => legacyWFKey e.1) = true) :
    clientGetQueriesData cache
        (legacyCreateQueryFilterFromSpec
          [(route, EndpointInvalidationPredicate.all)]) =
      Except.ok (cache.filter fun e =>
        isPlainEntryFor route e.1 || isInfiniteEntryFor route e.1) := by
  induction cache with
  | nil => rfl
  | cons e rest ih =>
      obtain ⟨k, v⟩ := e
      rw [List.all_cons, Bool.and_eq_true] at h
      obtain ⟨h1, h2⟩ := h
      simp only [clientGetQueriesData, legacyFilter_wf route k h1, ih h2]
      cases hb : isPlainEntryFor route k || isInfiniteEntryFor route k <;>
        simp [hb, List.filter_cons]

/-- For a well-formed key, splitting on the infinite marker at index 0
selects plain entries (negated test) or paginated entries (positive
test) of the route. -/
theorem plain_inf_pointwise (route : String) (k : List JSValue)
    (h : legacyWFKey k = true) :
    ((!jsStrictEqString (jsIndex k 0) INFINITE_QUERY_KEY) &&
        (isPlainEntryFor route k || isInfiniteEntryFor route k)) =
      isPlainEntryFor route k ∧
    (jsStrictEqString (jsIndex k 0) INFINITE_QUERY_KEY &&
        (isPlainEntryFor route k || isInfiniteEntryFor route k)) =
      isInfiniteEntryFor route k := by
  cases k with
  | nil => simp [legacyWFKey] at h
  | cons a rest =>
      cases rest with
      | nil =>
          simp only [legacyWFKey] at h
          cases a with
          | object fields =>
              simp [jsIndex, jsStrictEqString, isPlainEntryFor,
                isInfiniteEntryFor]
          | null => simp [legacyKeyObjOK] at h
          | undefined => simp [legacyKeyObjOK] at h
          | boolean b => simp [legacyKeyObjOK] at h
          | number n => simp [legacyKeyObjOK] at h
          | string s => simp [legacyKeyObjOK] at h
          | array xs => simp [legacyKeyObjOK] at h
      | cons b rest2 =>
          cases rest2 with
          | nil =>
              simp only [legacyWFKey, Bool.and_eq_true] at h
              have ha := eq_string_of_strictEq a INFINITE_QUERY_KEY h.1
              subst ha
              simp [jsIndex, jsStrictEqString, isPlainEntryFor,
                isInfiniteEntryFor, INFINITE_QUERY_KEY]
          | cons c rest3 => simp [legacyWFKey] at h

/-- C9: over a cache whose entries were created by this core (plain keys
`[keyObject]`, paginated keys `['infinite', keyObject]`),
getQueriesData(route) returns exactly the (payload, data) pairs of the
non-paginated entries of that route, getInfiniteQueriesData(route)
exactly those of the paginated entries of that route, and no cache entry
can be reported by both. -/
theorem getQueriesData_partition {V : Type} (route : String) (cache : Cache V)
    (hwf : cache.all (fun e => legacyWFKey e.1) = true) :
    getQueriesData route cache =
      Except.ok ((cache.filter fun e => isPlainEntryFor route e.1).map
        fun e => (jsGet (jsIndex e.1 0) "payload", e.2)) ∧
    getInfiniteQueriesData route cache =
      Except.ok ((cache.filter fun e => isInfiniteEntryFor route e.1).map
        fun e => (jsGet (jsIndex e.1 1) "payload", e.2)) ∧
    ∀ key : List JSValue,
      ¬(isPlainEntryFor route key = true ∧ isInfiniteEntryFor route key = true) := by
  have hwf' : ∀ e ∈ cache, legacyWFKey e.1 = true := by
    rw [List.all_eq_true] at hwf
    exact hwf
  refine ⟨?_, ?_, ?_⟩
  · simp only [getQueriesData, clientGetQueriesData_wf route cache hwf]
    rw [List.filter_filter]
    rw [List.filter_congr fun e he => (plain_inf_pointwise route e.1 (hwf' e he)).1]
  · simp only [getInfiniteQueriesData, clientGetQueriesData_wf route cache hwf]
    rw [List.filter_filter]
    rw [List.filter_congr fun e he => (plain_inf_pointwise route e.1 (hwf' e he)).2]
  · intro key
    cases key with
    | nil => simp [isPlainEntryFor]
    | cons a rest =>
        cases rest with
        | nil => simp [isInfiniteEntryFor]
        | cons b rest2 =>
            cases rest2 with
            | nil => simp [isPlainEntryFor]
            | cons c rest3 => simp [isPlainEntryFor]

/-- Witness for C9: on a concrete three-entry cache, the plain read
reports the non-paginated "GET /items" entry only, and the paginated read
reports the paginated one only. -/
theorem getQueriesData_partition_witness :
    getQueriesData "GET /items" exLegacyCache =
      Except.ok [(JSValue.null, 1)] ∧
    getInfiniteQueriesData "GET /items" exLegacyCache =
      Except.ok [(JSValue.boolean true, 2)] := by
  have h := getQueriesData_partition "GET /items" exLegacyCache rfl
  exact ⟨h.1.trans rfl, h.2.1.trans rfl⟩

/-- Spreading a fresh key into an accumulator object appends it. -/
theorem objSet_fresh (accum : List (String × JSValue)) (key : String)
    (v : JSValue) (h : containsKey accum key = false) :
    objSet accum key v = accum ++ [(key, v)] := by
  induction accum with
  | nil => rfl
  | cons f rest ih =>
      obtain ⟨k, w⟩ := f
      simp only [containsKey, List.any_cons, Bool.or_eq_false_iff] at h
      simp only [objSet]
      rw [if_neg (by simp [h.1]), ih (by simpa [containsKey] using h.2),
        List.cons_append]

/-- Folding entries whose keys are fresh and pairwise distinct into an
accumulator object appends, in order, exactly those entries whose name
does not occur ':'-prefixed in the route. -/
theorem fold_objSet_append (route : String) (accum M : List (String × JSValue))
    (hd : ∀ e ∈ M, containsKey accum e.1 = false)
    (hnodup : (M.map Prod.fst).Nodup) :
    M.foldl
        (fun acc e =>
          if jsIncludes route (":" ++ e.1) then acc else objSet acc e.1 e.2)
        accum =
      accum ++ M.filter fun e => !jsIncludes route (":" ++ e.1) := by
  induction M generalizing accum with
  | nil => simp
  | cons e rest ih =>
      obtain ⟨k, v⟩ := e
      rw [List.map_cons, List.nodup_cons] at hnodup
      obtain ⟨hknotin, hnodup2⟩ := hnodup
      have hdrest : ∀ f ∈ rest, containsKey accum f.1 = false := fun f hf =>
        hd f (List.mem_cons_of_mem _ hf)
      simp only [List.foldl_cons]
      by_cases hi : jsIncludes route (":" ++ k) = true
      · rw [if_pos hi, ih accum hdrest hnodup2]
        simp [List.filter_cons, hi]
      · rw [if_neg hi, objSet_fresh accum k v (hd (k, v) (List.mem_cons_self _ _))]
        have hdrest2 : ∀ f ∈ rest, containsKey (accum ++ [(k, v)]) f.1 = false := by
          intro f hf
          have hmem : f.1 ∈ rest.map Prod.fst := List.mem_map_of_mem Prod.fst hf
          have hne : (k == f.1) = false := by
            rw [beq_eq_false_iff_ne]
            intro hkf
            apply hknotin
            rw [hkf]
            exact hmem
          simp only [containsKey, List.any_append, List.any_cons, List.any_nil,
            Bool.or_eq_false_iff]
          exact ⟨by simpa [containsKey] using hdrest f hf, by simp [hne]⟩
        rw [ih (accum ++ [(k, v)]) hdrest2 hnodup2]
        simp [List.filter_cons, hi, Bool.not_eq_true]

/-- C10: APIClient.request forwards, as query params for GET and DELETE
and as body otherwise, exactly the payload entries whose value is not
undefined and whose ':'-prefixed key does not occur in the route's path,
in payload order; path-parameter values are substituted URI-encoded into
the URL; an array payload is forwarded unchanged with no keys removed. -/
theorem request_forwards_non_path_params (route method path : String)
    (fields : List (String × JSValue)) (elems : List JSValue)
    (hsplit : jsSplit route ' ' = [method, path])
    (hnodup : (fields.map Prod.fst).Nodup) :
    removePathParamsFromRequestPayload path (JSPayload.obj fields) =
      JSPayload.obj (fields.filter fun e =>
        !jsIncludes path (":" ++ e.1) && !jsIsUndefined e.2) ∧
    removePathParamsFromRequestPayload path (JSPayload.arr elems) =
      JSPayload.arr elems ∧
    (request route (JSPayload.obj fields)).url =
      substitutePathParams path (JSPayload.obj fields) ∧
    ((method = "GET" ∨ method = "DELETE") →
      (request route (JSPayload.obj fields)).params =
        some (removePathParamsFromRequestPayload path (JSPayload.obj fields)) ∧
      (request route (JSPayload.obj fields)).data = none ∧
      (request route (JSPayload.arr elems)).params =
        some (JSPayload.arr elems)) ∧
    (method ≠ "GET" → method ≠ "DELETE" →
      (request route (JSPayload.obj fields)).data =
        some (removePathParamsFromRequestPayload path (JSPayload.obj fields)) ∧
      (request route (JSPayload.obj fields)).params = none ∧
      (request route (JSPayload.arr elems)).data =
        some (JSPayload.arr elems)) := by
  have hremove : removePathParamsFromRequestPayload path (JSPayload.obj fields) =
      JSPayload.obj (fields.filter fun e =>
        !jsIncludes path (":" ++ e.1) && !jsIsUndefined e.2) := by
    simp only [removePathParamsFromRequestPayload]
    rw [fold_objSet_append path [] (fields.filter fun e => !jsIsUndefined e.2)
      (fun e _ => rfl)
      (hnodup.sublist ((List.filter_sublist fields).map Prod.fst))]
    rw [List.nil_append, List.filter_filter]
  refine ⟨hremove, rfl, ?_, ?_, ?_⟩
  · cases hm : (method == "GET" || method == "DELETE") <;>
      simp [request, hsplit, hm]
  · intro hmd
    have hm : (method == "GET" || method == "DELETE") = true := by
      rcases hmd with h | h <;> simp [h]
    simp [request, hsplit, hm, removePathParamsFromRequestPayload]
  · intro hg hdel
    have hm : (method == "GET" || method == "DELETE") = false := by
      simp [hg, hdel]
    simp [request, hsplit, hm, removePathParamsFromRequestPayload]

/-- Witness for C10 on the route "GET /items/:id": the `id` entry is
substituted into the URL and removed from the forwarded query params, an
undefined entry is dropped, and the remaining entry is forwarded. -/
theorem request_forwards_non_path_params_witness :
    (request "GET /items/:id"
        (JSPayload.obj [("id", JSValue.string "5"),
          ("filter", JSValue.string "f"), ("skip", JSValue.undefined)])).params =
      some (JSPayload.obj [("filter", JSValue.string "f")]) := by
  have h := request_forwards_non_path_params "GET /items/:id" "GET" "/items/:id"
    [("id", JSValue.string "5"), ("filter", JSValue.string "f"),
      ("skip", JSValue.undefined)] [] (by rfl) (by decide)
  rw [(h.2.2.2.1 (Or.inl rfl)).1, h.1]
  rfl

/-- Witness for C6 (amended) at concrete inputs: a well-formed key object
is recognized, and null makes the recognizer throw. -/
theorem isInternalQueryKey_presence_only_witness :
    isInternalQueryKey (JSValue.object [("name", JSValue.string "client"),
      ("route", JSValue.string "GET /items"), ("payload", JSValue.null),
      ("infinite", JSValue.boolean false)]) = Except.ok true ∧
    isInternalQueryKey JSValue.null = Except.error JSError.typeError := by
  constructor
  · exact ((isInternalQueryKey_presence_only (JSValue.object
      [("name", JSValue.string "client"), ("route", JSValue.string "GET /items"),
        ("payload", JSValue.null), ("infinite", JSValue.boolean false)])).2
      (fun hc => JSValue.noConfusion hc)).trans rfl
  · exact (isInternalQueryKey_presence_only JSValue.null).1 rfl

end OneQuery
